import Mathlib

/-!
# Fan-out event handler of the reconciliation engine

A shallow embedding of `pkg/handler/enqueue_mapped.go` together with the parts of
the work queue and of controller construction its specification talks about.

Go code is effectful: a call may mutate the surrounding world and may panic.
A Go call on a world of type `W` that returns an `α` is embedded as a function
`W → Except String α × W`: the first component is either the returned value or the
panic that unwinds to the caller, the second component is the world as the call left
it (mutations made before a panic persist, as they do in Go).
-/

set_option autoImplicit false

namespace reconcile

/-- Modelled from the spec: `reconcile.Request`, whose declaration is outside the
sources at hand, is the immutable value `{namespace, name}` with structural equality. -/
structure Request where
  Namespace : String
  Name : String
deriving DecidableEq, Repr

end reconcile

namespace event

/-- The `event.CreateEvent` value, with the field the handler reads. -/
structure CreateEvent (Obj : Type) where
  Object : Obj

/-- The `event.UpdateEvent` value, with the fields the handler reads. -/
structure UpdateEvent (Obj : Type) where
  ObjectOld : Obj
  ObjectNew : Obj

/-- The `event.DeleteEvent` value, with the field the handler reads. -/
structure DeleteEvent (Obj : Type) where
  Object : Obj

/-- The `event.GenericEvent` value, with the field the handler reads. -/
structure GenericEvent (Obj : Type) where
  Object : Obj

end event

namespace workqueue

/-- Modelled from the spec: the operations of the Work Queue (§4.2), the
`workqueue.RateLimitingInterface` handed to every handler entry point. The queue lives
in the world `W`; each operation is a world transformer. `Get` yields the item, if
any, and the shutdown flag. Durations are whole time units. -/
structure RateLimitingInterface (W Req : Type) where
  Add : Req → W → W
  AddAfter : Req → Nat → W → W
  AddRateLimited : Req → W → W
  Forget : Req → W → W
  Get : W → (Option Req × Bool) × W
  Done : Req → W → W
  Len : W → Nat × W
  ShutDown : W → W

/-- Modelled from the spec: the state of the Work Queue (§3 Queue Item, §4.2). `queue`
holds the queued keys in arrival order, `processing` the in-flight keys, `dirty` the
in-flight keys marked for re-adding, `attempts` the per-key requeue attempt counters,
`delayed` the pending delayed adds with their release times, `now` the clock the
delays are measured against, `shuttingDown` the draining flag, and `baseDelay`,
`maxDelay` the rate-limiter policy. The timer that releases due delayed adds is
internal to the queue and is not one of its operations. -/
structure WorkQueue where
  queue : List reconcile.Request
  processing : List reconcile.Request
  dirty : List reconcile.Request
  attempts : List (reconcile.Request × Nat)
  delayed : List (reconcile.Request × Nat)
  now : Nat
  shuttingDown : Bool
  baseDelay : Nat
  maxDelay : Nat
deriving DecidableEq, Repr

/-- Modelled from the spec: `Add(request)`, the idempotent insert. If absent and not
in-flight the key becomes queued; if in-flight it is marked dirty; if already queued
the call is a no-op. Never blocks, never errors. -/
def WorkQueue.Add (r : reconcile.Request) (s : WorkQueue) : WorkQueue :=
  if r ∉ s.queue ∧ r ∉ s.processing then
    { s with queue := s.queue ++ [r] }
  else if r ∈ s.processing then
    if r ∈ s.dirty then s else { s with dirty := s.dirty ++ [r] }
  else s

/-- Modelled from the spec: `AddAfter(request, delay)` schedules the add no earlier
than `delay` from now; pending delayed adds for one key collapse to the earliest. -/
def WorkQueue.AddAfter (r : reconcile.Request) (delay : Nat) (s : WorkQueue) : WorkQueue :=
  if s.delayed.any (fun p => p.1 = r) then
    { s with delayed :=
        s.delayed.map (fun p => if p.1 = r then (r, min p.2 (s.now + delay)) else p) }
  else
    { s with delayed := s.delayed ++ [(r, s.now + delay)] }

/-- The attempt counter of a key; a key without an entry has made no attempt. -/
def WorkQueue.numRequeues (r : reconcile.Request) (s : WorkQueue) : Nat :=
  (s.attempts.lookup r).getD 0

/-- Modelled from the spec: `AddRateLimited(request)` computes the delay by
deterministic doubling from the base delay, capped at the maximum delay, increments
the attempt counter, then behaves like `AddAfter`. -/
def WorkQueue.AddRateLimited (r : reconcile.Request) (s : WorkQueue) : WorkQueue :=
  let n := s.numRequeues r
  let delay := min (s.baseDelay * 2 ^ n) s.maxDelay
  WorkQueue.AddAfter r delay
    { s with attempts := s.attempts.filter (fun p => p.1 ≠ r) ++ [(r, n + 1)] }

/-- Modelled from the spec: `Forget(request)` resets the attempt counter to zero. -/
def WorkQueue.Forget (r : reconcile.Request) (s : WorkQueue) : WorkQueue :=
  { s with attempts := s.attempts.filter (fun p => p.1 ≠ r) }

/-- Modelled from the spec: `Get()` hands out the oldest queued item, marks it
in-flight and removes it from the queued state. On an empty queue it reports the
shutdown flag; a caller that would block sees no item and an unchanged queue. -/
def WorkQueue.Get (s : WorkQueue) : (Option reconcile.Request × Bool) × WorkQueue :=
  match s.queue with
  | [] => ((none, s.shuttingDown), s)
  | r :: rest => ((some r, false), { s with queue := rest, processing := s.processing ++ [r] })

/-- Modelled from the spec: `Done(request)` marks the item no longer in-flight; if it
was marked dirty while in-flight, it is re-added as queued immediately. -/
def WorkQueue.Done (r : reconcile.Request) (s : WorkQueue) : WorkQueue :=
  if r ∈ s.dirty then
    { s with processing := s.processing.filter (fun k => k ≠ r),
             dirty := s.dirty.filter (fun k => k ≠ r),
             queue := s.queue ++ [r] }
  else
    { s with processing := s.processing.filter (fun k => k ≠ r) }

/-- Modelled from the spec: `Len()`, observability only. -/
def WorkQueue.Len (s : WorkQueue) : Nat × WorkQueue :=
  (s.queue.length, s)

/-- Modelled from the spec: `ShutDown()` flips the queue into draining mode. -/
def WorkQueue.ShutDown (s : WorkQueue) : WorkQueue :=
  { s with shuttingDown := true }

/-- The Work Queue of the spec as an implementation of the queue interface. -/
def specQueue : RateLimitingInterface WorkQueue reconcile.Request :=
  { Add := WorkQueue.Add
    AddAfter := WorkQueue.AddAfter
    AddRateLimited := WorkQueue.AddRateLimited
    Forget := WorkQueue.Forget
    Get := WorkQueue.Get
    Done := WorkQueue.Done
    Len := WorkQueue.Len
    ShutDown := WorkQueue.ShutDown }

/-- A queue that knows a single operation, the given `Add`; every other operation
is inert. -/
def addOnly {W Req : Type} (add : Req → W → W) : RateLimitingInterface W Req :=
  { Add := add
    AddAfter := fun _ _ w => w
    AddRateLimited := fun _ w => w
    Forget := fun _ w => w
    Get := fun w => ((none, false), w)
    Done := fun _ w => w
    Len := fun w => (0, w)
    ShutDown := fun w => w }

end workqueue

namespace handler

open workqueue

/-- MapObject contains information from an event to be transformed into a Request. -/
structure MapObject (Obj : Type) where
  Object : Obj
deriving DecidableEq, Repr

/-- The Go type `toRequestsFunc`, a `func(MapObject) []reconcile.Request`: an effectful
call on the world that returns the requests or panics. (A nil function value is not
a mapper function and is not represented.) -/
abbrev toRequestsFunc (W Obj Req : Type) : Type :=
  MapObject Obj → W → Except String (List Req) × W

/-- The interface `mapper`: maps an object to a collection of keys to be enqueued. -/
structure mapper (W Obj Req : Type) where
  Map : MapObject Obj → W → Except String (List Req) × W

/-- Map implements Mapper: `toRequestsFunc.Map(i)` is `m(i)`. -/
def toRequestsFunc.Map {W Obj Req : Type} (m : toRequestsFunc W Obj Req)
    (i : MapObject Obj) : W → Except String (List Req) × W :=
  m i

/-- The conversion `toRequestsFunc(mapFN)` seen through the `mapper` interface. -/
def toRequestsFunc.asMapper {W Obj Req : Type} (m : toRequestsFunc W Obj Req) :
    mapper W Obj Req :=
  { Map := toRequestsFunc.Map m }

/-- The struct `enqueueRequestsFromMapFunc`. -/
structure enqueueRequestsFromMapFunc (W Obj Req : Type) where
  ToRequests : mapper W Obj Req

/-- EnqueueRequestsFromMapFunc builds the handler around `toRequestsFunc(mapFN)`. -/
def EnqueueRequestsFromMapFunc {W Obj Req : Type} (mapFN : toRequestsFunc W Obj Req) :
    enqueueRequestsFromMapFunc W Obj Req :=
  { ToRequests := toRequestsFunc.asMapper mapFN }

/-- The loop `for _, req := range reqs { q.Add(req) }`. -/
def enqueueAll {W Req : Type} (q : RateLimitingInterface W Req) : List Req → W → W
  | [], w => w
  | req :: rest, w => enqueueAll q rest (q.Add req w)

/-- The method `mapAndEnqueue`: the mapper is called first; when it returns, every
request is handed to `q.Add` in order; when it panics, the loop body never runs. -/
def enqueueRequestsFromMapFunc.mapAndEnqueue {W Obj Req : Type}
    (e : enqueueRequestsFromMapFunc W Obj Req) (q : RateLimitingInterface W Req)
    (object : MapObject Obj) : W → Except String Unit × W :=
  fun w =>
    match e.ToRequests.Map object w with
    | (Except.ok reqs, w1) => (Except.ok (), enqueueAll q reqs w1)
    | (Except.error p, w1) => (Except.error p, w1)

/-- Create implements EventHandler. -/
def enqueueRequestsFromMapFunc.Create {W Obj Req : Type}
    (e : enqueueRequestsFromMapFunc W Obj Req) (evt : event.CreateEvent Obj)
    (q : RateLimitingInterface W Req) : W → Except String Unit × W :=
  e.mapAndEnqueue q { Object := evt.Object }

/-- Update implements EventHandler: the old object first, then the new one; a panic
in the first call unwinds before the second call starts. -/
def enqueueRequestsFromMapFunc.Update {W Obj Req : Type}
    (e : enqueueRequestsFromMapFunc W Obj Req) (evt : event.UpdateEvent Obj)
    (q : RateLimitingInterface W Req) : W → Except String Unit × W :=
  fun w =>
    match e.mapAndEnqueue q { Object := evt.ObjectOld } w with
    | (Except.ok (), w1) => e.mapAndEnqueue q { Object := evt.ObjectNew } w1
    | (Except.error p, w1) => (Except.error p, w1)

/-- Delete implements EventHandler. -/
def enqueueRequestsFromMapFunc.Delete {W Obj Req : Type}
    (e : enqueueRequestsFromMapFunc W Obj Req) (evt : event.DeleteEvent Obj)
    (q : RateLimitingInterface W Req) : W → Except String Unit × W :=
  e.mapAndEnqueue q { Object := evt.Object }

/-- Generic implements EventHandler. -/
def enqueueRequestsFromMapFunc.Generic {W Obj Req : Type}
    (e : enqueueRequestsFromMapFunc W Obj Req) (evt : event.GenericEvent Obj)
    (q : RateLimitingInterface W Req) : W → Except String Unit × W :=
  e.mapAndEnqueue q { Object := evt.Object }

/-- The Go type `inject.Func`, a `func(i interface{}) error` applied here to a mapper;
`none` is the nil function value. The returned `Option String` is the Go `error`
(`none` for nil). -/
abbrev injectFunc (W Obj Req : Type) : Type :=
  Option (mapper W Obj Req → W → Except String (Option String) × W)

/-- InjectFunc implements inject.Injector. The receiver is a pointer; the second
component of the result is the receiver as the call leaves it. -/
def enqueueRequestsFromMapFunc.InjectFunc {W Obj Req : Type}
    (e : enqueueRequestsFromMapFunc W Obj Req) (f : injectFunc W Obj Req) :
    W → (Except String (Option String) × W) × enqueueRequestsFromMapFunc W Obj Req :=
  fun w =>
    match f with
    | none => ((Except.ok none, w), e)
    | some g => (g e.ToRequests w, e)

end handler

/-! ## Observation devices

Mappers that leave the world alone, and a world that is nothing but the log of the
calls made on the mapper and on the queue. -/

namespace handler

open workqueue

/-- A mapper function that computes its answer, or fails, without touching the world. -/
def fallibleFunc {W Obj Req : Type} (f : MapObject Obj → Except String (List Req)) :
    toRequestsFunc W Obj Req :=
  fun object w => (f object, w)

/-- A mapper function that is a total function of its argument. -/
def pureFunc {W Obj Req : Type} (f : MapObject Obj → List Req) : toRequestsFunc W Obj Req :=
  fallibleFunc (fun object => Except.ok (f object))

/-- One call observed on the mapper or on the queue. -/
inductive Call (Obj Req : Type) where
  | Map (object : MapObject Obj)
  | Add (item : Req)
  | AddAfter (item : Req) (delay : Nat)
  | AddRateLimited (item : Req)
  | Forget (item : Req)
  | Get
  | Done (item : Req)
  | Len
  | ShutDown
deriving DecidableEq, Repr

/-- The queue that appends every call made on it to the log. -/
def recorder {Obj Req : Type} : RateLimitingInterface (List (Call Obj Req)) Req :=
  { Add := fun r log => log ++ [Call.Add r]
    AddAfter := fun r d log => log ++ [Call.AddAfter r d]
    AddRateLimited := fun r log => log ++ [Call.AddRateLimited r]
    Forget := fun r log => log ++ [Call.Forget r]
    Get := fun log => ((none, false), log ++ [Call.Get])
    Done := fun r log => log ++ [Call.Done r]
    Len := fun log => (0, log ++ [Call.Len])
    ShutDown := fun log => log ++ [Call.ShutDown] }

/-- The mapper function that appends each invocation to the log before answering as
`f` does. -/
def recordedFunc {Obj Req : Type} (f : MapObject Obj → Except String (List Req)) :
    toRequestsFunc (List (Call Obj Req)) Obj Req :=
  fun object log => (f object, log ++ [Call.Map object])

/-- The requests of the `Add` calls of a log, in order. -/
def addCalls {Obj Req : Type} : List (Call Obj Req) → List Req
  | [] => []
  | Call.Add r :: rest => r :: addCalls rest
  | _ :: rest => addCalls rest

/-- The objects of the `Map` calls of a log, in order. -/
def mapCalls {Obj Req : Type} : List (Call Obj Req) → List (MapObject Obj)
  | [] => []
  | Call.Map o :: rest => o :: mapCalls rest
  | _ :: rest => mapCalls rest

/-- Whether a logged call is a call of the mapper or of the queue's `Add`. -/
def Call.isMapOrAdd {Obj Req : Type} : Call Obj Req → Bool
  | Call.Map _ => true
  | Call.Add _ => true
  | _ => false

/-- Modelled from the spec: the Change Event (§3), one of Created, Updated, Deleted,
Generic. -/
inductive Event (Obj : Type) where
  | Created (evt : event.CreateEvent Obj)
  | Updated (evt : event.UpdateEvent Obj)
  | Deleted (evt : event.DeleteEvent Obj)
  | Generic (evt : event.GenericEvent Obj)

/-- Modelled from the spec: the watch layer delivers each Change Event to the entry
point of its kind (§6). -/
def deliver {W Obj Req : Type} (e : enqueueRequestsFromMapFunc W Obj Req)
    (ev : Event Obj) (q : RateLimitingInterface W Req) : W → Except String Unit × W :=
  match ev with
  | Event.Created evt => e.Create evt q
  | Event.Updated evt => e.Update evt q
  | Event.Deleted evt => e.Delete evt q
  | Event.Generic evt => e.Generic evt q

/-- The objects an event carries, in the order the handler maps them. -/
def Event.objects {Obj : Type} : Event Obj → List (MapObject Obj)
  | Event.Created evt => [{ Object := evt.Object }]
  | Event.Updated evt => [{ Object := evt.ObjectOld }, { Object := evt.ObjectNew }]
  | Event.Deleted evt => [{ Object := evt.Object }]
  | Event.Generic evt => [{ Object := evt.Object }]

end handler

namespace workqueue

/-- A key on which `Add` has nothing left to do: in flight and marked dirty, or not
in flight and queued. -/
def Settled (r : reconcile.Request) (s : WorkQueue) : Prop :=
  (r ∈ s.processing ∧ r ∈ s.dirty) ∨ (r ∉ s.processing ∧ r ∈ s.queue)
end workqueue

namespace controller

open workqueue

/-- Modelled from the spec: the matcher `ContainSubstring` of the tests of
`controller.New`: some suffix of `s` starts with `substr`. -/
def ContainSubstring (s substr : String) : Bool :=
  s.toList.tails.any (fun t => substr.toList.isPrefixOf t)

/-- Modelled from the spec: the options handed to `controller.New` (§3 Controller, §6):
the external reconciler, which may be unset, the number of concurrent workers, with 0
for unset, and the rate-limiter policy as base delay and maximum delay. -/
structure Options (R : Type) where
  Reconciler : Option R
  MaxConcurrentReconciles : Nat
  BaseDelay : Nat
  MaxDelay : Nat

/-- Modelled from the spec: the manager seen from `controller.New`, the provider of
the dependencies injected into the reconciler (§6, §9); `SetFields` returns the error
of a failed injection, `none` on success. -/
structure Manager (R : Type) where
  SetFields : R → Option String

/-- Modelled from the spec: the Controller (§3) as `New` wires it, in state Created. -/
structure Controller (R : Type) where
  Name : String
  Do : R
  MaxConcurrentReconciles : Nat
  Queue : WorkQueue

/-- Modelled from the spec: the errors of `controller.New` (§7): validation errors and
injection errors, each with its text. -/
inductive NewError where
  | validation (text : String)
  | injection (text : String)
deriving DecidableEq, Repr

/-- The text of an error, the Go method `Error()`. -/
def NewError.Error : NewError → String
  | NewError.validation text => text
  | NewError.injection text => text

/-- Modelled from the spec: `controller.New(name, mgr, options)`, whose source file is
not at hand (only its tests are). It validates that the name is non-empty and the
reconciler set, with the error texts the tests expect, injects the dependencies into
the reconciler, failing with the injection error if that fails, and otherwise wires the
queue and the worker count (one worker if unset). `Except.error` is the Go result
`(nil, err)`, `Except.ok c` the result `(c, nil)`. -/
def New {R : Type} (name : String) (mgr : Manager R) (options : Options R) :
    Except NewError (Controller R) :=
  if name = "" then
    Except.error (NewError.validation "must specify Name for Controller")
  else
    match options.Reconciler with
    | none => Except.error (NewError.validation "must specify Reconciler")
    | some r =>
      match mgr.SetFields r with
      | some err => Except.error (NewError.injection err)
      | none =>
        Except.ok
          { Name := name
            Do := r
            MaxConcurrentReconciles :=
              if options.MaxConcurrentReconciles = 0 then 1 else options.MaxConcurrentReconciles
            Queue :=
              { queue := [], processing := [], dirty := [], attempts := [], delayed := [],
                now := 0, shuttingDown := false, baseDelay := options.BaseDelay,
                maxDelay := options.MaxDelay } }

end controller

/-! ## Concrete inputs -/

namespace fixtures

/-- The two reconcilers of the tests of `controller.New`: `okRec`, whose injection
succeeds, and `failRec`, whose `InjectClient` fails. -/
inductive Rec where
  | okRec
  | failRec
deriving DecidableEq, Repr

/-- The manager of the tests: injecting into `failRec` fails with "expected error". -/
def mgr : controller.Manager Rec :=
  { SetFields := fun r =>
      match r with
      | Rec.okRec => none
      | Rec.failRec => some "expected error" }

/-- Options with the given reconciler and everything else unset. -/
def optionsWith (r : Option Rec) : controller.Options Rec :=
  { Reconciler := r, MaxConcurrentReconciles := 0, BaseDelay := 1, MaxDelay := 1000 }

open handler workqueue

/-- The request for `default/a`. -/
def reqA : reconcile.Request := { Namespace := "default", Name := "a" }

/-- The request for `default/b`. -/
def reqB : reconcile.Request := { Namespace := "default", Name := "b" }

/-- The request for `default/c`. -/
def reqC : reconcile.Request := { Namespace := "default", Name := "c" }

/-- The request for `default/d`. -/
def reqD : reconcile.Request := { Namespace := "default", Name := "d" }

/-- A queue with nothing queued and nothing in flight. -/
def emptyQueue : WorkQueue :=
  { queue := [], processing := [], dirty := [], attempts := [], delayed := [], now := 0,
    shuttingDown := false, baseDelay := 1, maxDelay := 1000 }

/-- A queue on which `reqB` waits, `reqD` is in flight, and `reqA` has failed twice. -/
def busyQueue : WorkQueue :=
  { queue := [reqB], processing := [reqD], dirty := [], attempts := [(reqA, 2)],
    delayed := [(reqA, 7)], now := 3, shuttingDown := false, baseDelay := 1, maxDelay := 1000 }

/-- A mapper over numbered objects: object 0 maps to a, b, a; every other object to
b, c. -/
def fanOut : MapObject Nat → List reconcile.Request :=
  fun object => if object.Object = 0 then [reqA, reqB, reqA] else [reqB, reqC]

/-- A mapper that maps nothing for object 0 and a, b for every other object. -/
def sparse : MapObject Nat → List reconcile.Request :=
  fun object => if object.Object = 0 then [] else [reqA, reqB]

/-- A mapper that answers for object 0 and fails for every other object. -/
def flaky : MapObject Nat → Except String (List reconcile.Request) :=
  fun object => if object.Object = 0 then Except.ok [reqA] else Except.error "mapper failed"

end fixtures

/-! ## Shared lemmas -/

namespace handler

open workqueue

theorem enqueueAll_append {W Req : Type} (q : RateLimitingInterface W Req)
    (xs ys : List Req) (w : W) :
    enqueueAll q (xs ++ ys) w = enqueueAll q ys (enqueueAll q xs w) := by
  induction xs generalizing w with
  | nil => rfl
  | cons x xs ih => simpa [enqueueAll] using ih (q.Add x w)

theorem enqueueAll_congr {W Req : Type} (q1 q2 : RateLimitingInterface W Req)
    (h : q1.Add = q2.Add) (xs : List Req) (w : W) :
    enqueueAll q1 xs w = enqueueAll q2 xs w := by
  induction xs generalizing w with
  | nil => rfl
  | cons x xs ih => simp [enqueueAll, h, ih]

theorem enqueueAll_recorder {Obj Req : Type} (xs : List Req) (log : List (Call Obj Req)) :
    enqueueAll recorder xs log = log ++ xs.map Call.Add := by
  induction xs generalizing log with
  | nil => simp [enqueueAll]
  | cons x xs ih =>
    have hAdd : (recorder : RateLimitingInterface (List (Call Obj Req)) Req).Add x log =
        log ++ [Call.Add x] := rfl
    simp [enqueueAll, ih, hAdd]

theorem addCalls_append {Obj Req : Type} (xs ys : List (Call Obj Req)) :
    addCalls (xs ++ ys) = addCalls xs ++ addCalls ys := by
  induction xs with
  | nil => rfl
  | cons c xs ih => cases c <;> simp [addCalls, ih]

theorem mapCalls_append {Obj Req : Type} (xs ys : List (Call Obj Req)) :
    mapCalls (xs ++ ys) = mapCalls xs ++ mapCalls ys := by
  induction xs with
  | nil => rfl
  | cons c xs ih => cases c <;> simp [mapCalls, ih]

theorem addCalls_map_Add {Obj Req : Type} (xs : List Req) :
    addCalls (xs.map (Call.Add : Req → Call Obj Req)) = xs := by
  induction xs with
  | nil => rfl
  | cons x xs ih => simp [addCalls, ih]

theorem mapCalls_map_Add {Obj Req : Type} (xs : List Req) :
    mapCalls (xs.map (Call.Add : Req → Call Obj Req)) = [] := by
  induction xs with
  | nil => rfl
  | cons x xs ih => simp [mapCalls, ih]

theorem mapAndEnqueue_fallible {W Obj Req : Type}
    (f : MapObject Obj → Except String (List Req)) (q : RateLimitingInterface W Req)
    (object : MapObject Obj) (w : W) :
    (EnqueueRequestsFromMapFunc (fallibleFunc f)).mapAndEnqueue q object w =
      match f object with
      | Except.ok reqs => (Except.ok (), enqueueAll q reqs w)
      | Except.error p => (Except.error p, w) := by
  simp only [enqueueRequestsFromMapFunc.mapAndEnqueue, EnqueueRequestsFromMapFunc,
    toRequestsFunc.asMapper, toRequestsFunc.Map, fallibleFunc]
  cases f object <;> rfl

theorem mapAndEnqueue_pure {W Obj Req : Type} (f : MapObject Obj → List Req)
    (q : RateLimitingInterface W Req) (object : MapObject Obj) (w : W) :
    (EnqueueRequestsFromMapFunc (pureFunc f)).mapAndEnqueue q object w =
      (Except.ok (), enqueueAll q (f object) w) := by
  simp [pureFunc, mapAndEnqueue_fallible]

theorem mapAndEnqueue_recorded {Obj Req : Type}
    (f : MapObject Obj → Except String (List Req)) (object : MapObject Obj)
    (log : List (Call Obj Req)) :
    (EnqueueRequestsFromMapFunc (recordedFunc f)).mapAndEnqueue recorder object log =
      match f object with
      | Except.ok reqs => (Except.ok (), log ++ [Call.Map object] ++ reqs.map Call.Add)
      | Except.error p => (Except.error p, log ++ [Call.Map object]) := by
  simp only [enqueueRequestsFromMapFunc.mapAndEnqueue, EnqueueRequestsFromMapFunc,
    toRequestsFunc.asMapper, toRequestsFunc.Map, recordedFunc]
  cases f object <;> simp [enqueueAll_recorder]

theorem update_pure {W Obj Req : Type} (f : MapObject Obj → List Req)
    (evt : event.UpdateEvent Obj) (q : RateLimitingInterface W Req) (w : W) :
    (EnqueueRequestsFromMapFunc (pureFunc f)).Update evt q w =
      (Except.ok (),
        enqueueAll q (f { Object := evt.ObjectOld } ++ f { Object := evt.ObjectNew }) w) := by
  simp [enqueueRequestsFromMapFunc.Update, mapAndEnqueue_pure, enqueueAll_append]

theorem deliver_pure {W Obj Req : Type} (f : MapObject Obj → List Req)
    (ev : Event Obj) (q : RateLimitingInterface W Req) (w : W) :
    deliver (EnqueueRequestsFromMapFunc (pureFunc f)) ev q w =
      (Except.ok (), enqueueAll q (ev.objects.flatMap f) w) := by
  cases ev <;>
    simp [deliver, Event.objects, enqueueRequestsFromMapFunc.Create,
      enqueueRequestsFromMapFunc.Delete, enqueueRequestsFromMapFunc.Generic, update_pure,
      mapAndEnqueue_pure]

theorem deliver_recorded {Obj Req : Type} (f : MapObject Obj → List Req)
    (ev : Event Obj) (log : List (Call Obj Req)) :
    deliver (EnqueueRequestsFromMapFunc (recordedFunc (fun o => Except.ok (f o)))) ev
        recorder log =
      (Except.ok (),
        log ++ ev.objects.flatMap (fun o => Call.Map o :: (f o).map Call.Add)) := by
  cases ev <;>
    simp [deliver, Event.objects, enqueueRequestsFromMapFunc.Create,
      enqueueRequestsFromMapFunc.Delete, enqueueRequestsFromMapFunc.Generic,
      enqueueRequestsFromMapFunc.Update, mapAndEnqueue_recorded]

end handler

/-! ## The spec's queue under repeated `Add` -/

namespace workqueue

open handler

theorem Add_frame (r : reconcile.Request) (s : WorkQueue) :
    (WorkQueue.Add r s).processing = s.processing ∧
    (WorkQueue.Add r s).attempts = s.attempts ∧
    (WorkQueue.Add r s).delayed = s.delayed ∧
    (WorkQueue.Add r s).shuttingDown = s.shuttingDown ∧
    (WorkQueue.Add r s).now = s.now ∧
    (WorkQueue.Add r s).baseDelay = s.baseDelay ∧
    (WorkQueue.Add r s).maxDelay = s.maxDelay := by
  unfold WorkQueue.Add
  split_ifs <;> simp

theorem Add_of_settled (r : reconcile.Request) (s : WorkQueue) (h : Settled r s) :
    WorkQueue.Add r s = s := by
  unfold WorkQueue.Add
  rcases h with ⟨hp, hd⟩ | ⟨hp, hq⟩
  · simp [hp, hd]
  · simp [hp, hq]

theorem settled_Add_self (r : reconcile.Request) (s : WorkQueue) :
    Settled r (WorkQueue.Add r s) := by
  unfold WorkQueue.Add Settled
  by_cases hp : r ∈ s.processing
  · by_cases hd : r ∈ s.dirty
    · simp [hp, hd]
    · simp [hp, hd]
  · by_cases hq : r ∈ s.queue
    · simp [hp, hq]
    · simp [hp, hq]

theorem settled_Add_other (r k : reconcile.Request) (s : WorkQueue) (h : Settled r s) :
    Settled r (WorkQueue.Add k s) := by
  unfold WorkQueue.Add
  unfold Settled at h ⊢
  split_ifs <;> (try simp only [List.mem_append, List.mem_singleton]) <;> tauto

theorem settled_enqueueAll (r : reconcile.Request) (xs : List reconcile.Request)
    (s : WorkQueue) (h : Settled r s) : Settled r (enqueueAll specQueue xs s) := by
  induction xs generalizing s with
  | nil => exact h
  | cons x xs ih => exact ih _ (settled_Add_other r x s h)

theorem settled_of_mem_enqueueAll (xs : List reconcile.Request) (s : WorkQueue) :
    ∀ r ∈ xs, Settled r (enqueueAll specQueue xs s) := by
  induction xs generalizing s with
  | nil => intro r hr; cases hr
  | cons x xs ih =>
    intro r hr
    rcases List.mem_cons.mp hr with rfl | hr
    · exact settled_enqueueAll r xs _ (settled_Add_self r s)
    · exact ih _ r hr

theorem enqueueAll_of_settled (xs : List reconcile.Request) (s : WorkQueue)
    (h : ∀ r ∈ xs, Settled r s) : enqueueAll specQueue xs s = s := by
  induction xs with
  | nil => rfl
  | cons x xs ih =>
    have hx : specQueue.Add x s = s := Add_of_settled x s (h x (List.mem_cons_self x xs))
    simp only [enqueueAll, hx]
    exact ih (fun r hr => h r (List.mem_cons_of_mem x hr))

theorem enqueueAll_twice (xs : List reconcile.Request) (s : WorkQueue) :
    enqueueAll specQueue xs (enqueueAll specQueue xs s) = enqueueAll specQueue xs s :=
  enqueueAll_of_settled xs _ (settled_of_mem_enqueueAll xs s)

theorem Add_queue_not_processing (r : reconcile.Request) (s : WorkQueue)
    (h : r ∉ s.processing) :
    (WorkQueue.Add r s).queue = if r ∈ s.queue then s.queue else s.queue ++ [r] := by
  unfold WorkQueue.Add
  by_cases hq : r ∈ s.queue <;> simp [h, hq]

theorem enqueueAll_frame {W Req α : Type} (q : RateLimitingInterface W Req) (π : W → α)
    (h : ∀ r w, π (q.Add r w) = π w) (xs : List Req) (w : W) :
    π (enqueueAll q xs w) = π w := by
  induction xs generalizing w with
  | nil => rfl
  | cons x xs ih => simp [enqueueAll, ih, h]

theorem Add_queue_count (x k : reconcile.Request) (s : WorkQueue) (h : x ∉ s.processing) :
    (WorkQueue.Add x s).queue.count k =
      if k = x then max (s.queue.count k) 1 else s.queue.count k := by
  rw [Add_queue_not_processing x s h]
  by_cases hxq : x ∈ s.queue
  · simp only [hxq, if_true]
    by_cases hk : k = x
    · subst hk
      have : 0 < s.queue.count k := List.count_pos_iff.mpr hxq
      simp only [if_true]
      omega
    · simp [hk]
  · simp only [hxq, if_false, List.count_append]
    by_cases hk : k = x
    · subst hk
      have : s.queue.count k = 0 := List.count_eq_zero_of_not_mem hxq
      simp [this]
    · have hk' : x ≠ k := fun e => hk e.symm
      simp [hk, List.count_singleton, hk']

theorem enqueueAll_queue_count (xs : List reconcile.Request) (s : WorkQueue)
    (h : ∀ r ∈ xs, r ∉ s.processing) (k : reconcile.Request) :
    (enqueueAll specQueue xs s).queue.count k =
      if k ∈ xs then max (s.queue.count k) 1 else s.queue.count k := by
  induction xs generalizing s with
  | nil => simp [enqueueAll]
  | cons x xs ih =>
    have hx : x ∉ s.processing := h x (List.mem_cons_self x xs)
    have hp : (WorkQueue.Add x s).processing = s.processing := (Add_frame x s).1
    have ih' := ih (WorkQueue.Add x s) (fun r hr => by
      rw [hp]; exact h r (List.mem_cons_of_mem x hr))
    have hAdd : specQueue.Add x s = WorkQueue.Add x s := rfl
    simp only [enqueueAll, hAdd, ih', Add_queue_count x k s hx, List.mem_cons]
    by_cases hk : k = x
    · subst hk
      by_cases hm : k ∈ xs
      · simp only [hm, if_true, true_or]
        omega
      · simp [hm]
    · simp [hk]

end workqueue

namespace handler

open workqueue

theorem mapAndEnqueue_congr {W Obj Req : Type} (e : enqueueRequestsFromMapFunc W Obj Req)
    (q1 q2 : RateLimitingInterface W Req) (h : q1.Add = q2.Add) (object : MapObject Obj)
    (w : W) : e.mapAndEnqueue q1 object w = e.mapAndEnqueue q2 object w := by
  unfold enqueueRequestsFromMapFunc.mapAndEnqueue
  rcases e.ToRequests.Map object w with ⟨r | r, w1⟩
  · rfl
  · simp [enqueueAll_congr q1 q2 h]

theorem deliver_congr {W Obj Req : Type} (e : enqueueRequestsFromMapFunc W Obj Req)
    (q1 q2 : RateLimitingInterface W Req) (h : q1.Add = q2.Add) (ev : Event Obj) (w : W) :
    deliver e ev q1 w = deliver e ev q2 w := by
  cases ev with
  | Created evt => exact mapAndEnqueue_congr e q1 q2 h _ w
  | Deleted evt => exact mapAndEnqueue_congr e q1 q2 h _ w
  | Generic evt => exact mapAndEnqueue_congr e q1 q2 h _ w
  | Updated evt =>
    simp only [deliver, enqueueRequestsFromMapFunc.Update]
    rw [mapAndEnqueue_congr e q1 q2 h _ w]
    rcases e.mapAndEnqueue q2 { Object := evt.ObjectOld } w with ⟨r | r, w1⟩
    · rfl
    · exact mapAndEnqueue_congr e q1 q2 h _ w1

theorem mapAndEnqueue_fallible_world {W Obj Req : Type}
    (f : MapObject Obj → Except String (List Req)) (q : RateLimitingInterface W Req)
    (object : MapObject Obj) (w : W) :
    ∃ xs, ((EnqueueRequestsFromMapFunc (fallibleFunc f)).mapAndEnqueue q object w).2 =
      enqueueAll q xs w := by
  rw [mapAndEnqueue_fallible]
  cases f object with
  | error p => exact ⟨[], rfl⟩
  | ok reqs => exact ⟨reqs, rfl⟩

theorem deliver_fallible_world {W Obj Req : Type}
    (f : MapObject Obj → Except String (List Req)) (ev : Event Obj)
    (q : RateLimitingInterface W Req) (w : W) :
    ∃ xs, (deliver (EnqueueRequestsFromMapFunc (fallibleFunc f)) ev q w).2 =
      enqueueAll q xs w := by
  cases ev with
  | Created evt => exact mapAndEnqueue_fallible_world f q _ w
  | Deleted evt => exact mapAndEnqueue_fallible_world f q _ w
  | Generic evt => exact mapAndEnqueue_fallible_world f q _ w
  | Updated evt =>
    simp only [deliver, enqueueRequestsFromMapFunc.Update, mapAndEnqueue_fallible]
    cases f { Object := evt.ObjectOld } with
    | error p => exact ⟨[], rfl⟩
    | ok reqs =>
      cases f { Object := evt.ObjectNew } with
      | error p => exact ⟨reqs, rfl⟩
      | ok reqs' => exact ⟨reqs ++ reqs', by simp [enqueueAll_append]⟩

theorem mapAndEnqueue_recorded_trace {Obj Req : Type}
    (f : MapObject Obj → Except String (List Req)) (object : MapObject Obj)
    (log : List (Call Obj Req)) :
    ∃ t, ((EnqueueRequestsFromMapFunc (recordedFunc f)).mapAndEnqueue recorder object log).2 =
        log ++ t ∧ ∀ c ∈ t, c.isMapOrAdd = true := by
  rw [mapAndEnqueue_recorded]
  cases f object with
  | error p =>
    refine ⟨[Call.Map object], rfl, ?_⟩
    intro c hc
    simp only [List.mem_singleton] at hc
    subst hc
    rfl
  | ok reqs =>
    refine ⟨Call.Map object :: reqs.map Call.Add, by simp, ?_⟩
    intro c hc
    rcases List.mem_cons.mp hc with rfl | hc
    · rfl
    · obtain ⟨r, _, rfl⟩ := List.mem_map.mp hc
      rfl

theorem deliver_recorded_trace {Obj Req : Type}
    (f : MapObject Obj → Except String (List Req)) (ev : Event Obj)
    (log : List (Call Obj Req)) :
    ∃ t, (deliver (EnqueueRequestsFromMapFunc (recordedFunc f)) ev recorder log).2 =
        log ++ t ∧ ∀ c ∈ t, c.isMapOrAdd = true := by
  cases ev with
  | Created evt => exact mapAndEnqueue_recorded_trace f _ log
  | Deleted evt => exact mapAndEnqueue_recorded_trace f _ log
  | Generic evt => exact mapAndEnqueue_recorded_trace f _ log
  | Updated evt =>
    obtain ⟨t1, h1, a1⟩ := mapAndEnqueue_recorded_trace f { Object := evt.ObjectOld } log
    simp only [deliver, enqueueRequestsFromMapFunc.Update]
    rcases hrun : (EnqueueRequestsFromMapFunc (recordedFunc f)).mapAndEnqueue recorder
        { Object := evt.ObjectOld } log with ⟨r | r, w1⟩
    · rw [hrun] at h1
      exact ⟨t1, h1, a1⟩
    · rw [hrun] at h1
      simp only at h1
      subst h1
      obtain ⟨t2, h2, a2⟩ :=
        mapAndEnqueue_recorded_trace f { Object := evt.ObjectNew } (log ++ t1)
      refine ⟨t1 ++ t2, by simpa [List.append_assoc] using h2, ?_⟩
      intro c hc
      rcases List.mem_append.mp hc with hc | hc
      · exact a1 c hc
      · exact a2 c hc

end handler

/-! ## The claims about the calls made on the queue -/

namespace handler

open workqueue

/-- C1: for every mapper function `f` and every Update event with old object A and new
object B, the handler's Update submits exactly `f A ++ f B` to the queue's Add, in that
order: on any queue the resulting world is the one reached by adding `f A ++ f B` one
by one, and on the recording queue the log grows by `Map A`, one `Add` per element of
`f A`, `Map B`, one `Add` per element of `f B`; nothing is deduplicated, so there are
`len (f A) + len (f B)` Add calls. -/
theorem update_adds_old_then_new {W Obj Req : Type} (f : MapObject Obj → List Req)
    (evt : event.UpdateEvent Obj) :
    (∀ (q : RateLimitingInterface W Req) (w : W),
      (EnqueueRequestsFromMapFunc (pureFunc f)).Update evt q w =
        (Except.ok (),
          enqueueAll q (f { Object := evt.ObjectOld } ++ f { Object := evt.ObjectNew }) w)) ∧
    (∀ log : List (Call Obj Req),
      (EnqueueRequestsFromMapFunc (recordedFunc (fun o => Except.ok (f o)))).Update evt
          recorder log =
        (Except.ok (),
          log ++ ([Call.Map { Object := evt.ObjectOld }] ++
            (f { Object := evt.ObjectOld }).map Call.Add ++
            [Call.Map { Object := evt.ObjectNew }] ++
            (f { Object := evt.ObjectNew }).map Call.Add))) ∧
    addCalls ([Call.Map { Object := evt.ObjectOld }] ++
        (f { Object := evt.ObjectOld }).map (Call.Add : Req → Call Obj Req) ++
        [Call.Map { Object := evt.ObjectNew }] ++
        (f { Object := evt.ObjectNew }).map Call.Add) =
      f { Object := evt.ObjectOld } ++ f { Object := evt.ObjectNew } ∧
    (addCalls ([Call.Map { Object := evt.ObjectOld }] ++
        (f { Object := evt.ObjectOld }).map (Call.Add : Req → Call Obj Req) ++
        [Call.Map { Object := evt.ObjectNew }] ++
        (f { Object := evt.ObjectNew }).map Call.Add)).length =
      (f { Object := evt.ObjectOld }).length + (f { Object := evt.ObjectNew }).length := by
  refine ⟨fun q w => update_pure f evt q w, fun log => ?_, ?_, ?_⟩
  · simp [enqueueRequestsFromMapFunc.Update, mapAndEnqueue_recorded]
  · simp [addCalls_append, addCalls_map_Add, addCalls]
  · simp [addCalls_append, addCalls_map_Add, addCalls]

/-- C2: for every mapper function `f` and every Create, Delete or Generic event carrying
object O, the handler invokes `f` exactly once, on the MapObject wrapping O, and calls
the queue's Add exactly once per element of `f O`, in order, and makes no other call:
on the recording queue the log grows by `Map O` followed by one `Add` per element of
`f O`, and on any queue the resulting world is the one reached by adding `f O` one by
one. -/
theorem create_delete_generic_add_mapped {W Obj Req : Type} (f : MapObject Obj → List Req)
    (O : Obj) :
    (∀ (q : RateLimitingInterface W Req) (w : W),
      (EnqueueRequestsFromMapFunc (pureFunc f)).Create { Object := O } q w =
          (Except.ok (), enqueueAll q (f { Object := O }) w) ∧
      (EnqueueRequestsFromMapFunc (pureFunc f)).Delete { Object := O } q w =
          (Except.ok (), enqueueAll q (f { Object := O }) w) ∧
      (EnqueueRequestsFromMapFunc (pureFunc f)).Generic { Object := O } q w =
          (Except.ok (), enqueueAll q (f { Object := O }) w)) ∧
    (∀ log : List (Call Obj Req),
      (EnqueueRequestsFromMapFunc (recordedFunc (fun o => Except.ok (f o)))).Create
          { Object := O } recorder log =
        (Except.ok (), log ++ (Call.Map { Object := O } :: (f { Object := O }).map Call.Add)) ∧
      (EnqueueRequestsFromMapFunc (recordedFunc (fun o => Except.ok (f o)))).Delete
          { Object := O } recorder log =
        (Except.ok (), log ++ (Call.Map { Object := O } :: (f { Object := O }).map Call.Add)) ∧
      (EnqueueRequestsFromMapFunc (recordedFunc (fun o => Except.ok (f o)))).Generic
          { Object := O } recorder log =
        (Except.ok (), log ++ (Call.Map { Object := O } :: (f { Object := O }).map Call.Add))) ∧
    mapCalls (Call.Map { Object := O } ::
        (f { Object := O }).map (Call.Add : Req → Call Obj Req)) = [{ Object := O }] ∧
    addCalls (Call.Map { Object := O } ::
        (f { Object := O }).map (Call.Add : Req → Call Obj Req)) = f { Object := O } := by
  refine ⟨fun q w => ?_, fun log => ?_, ?_, ?_⟩
  · simp [enqueueRequestsFromMapFunc.Create, enqueueRequestsFromMapFunc.Delete,
      enqueueRequestsFromMapFunc.Generic, mapAndEnqueue_pure]
  · simp [enqueueRequestsFromMapFunc.Create, enqueueRequestsFromMapFunc.Delete,
      enqueueRequestsFromMapFunc.Generic, mapAndEnqueue_recorded]
  · simp [mapCalls, mapCalls_map_Add]
  · simp [addCalls, addCalls_map_Add]

/-- C5: for every mapped handler `e` with mapper `m = e.ToRequests`: with a non-nil
injection function `g`, `e.InjectFunc g` is one call of `g` on `m`: it returns what
`g m` returns, leaves the world as `g m` leaves it, and so returns an error exactly when
`g m` does (an injection function that counts its invocations counts one); with the nil
function it returns nil and leaves the world alone. In both cases the handler, and with
it its mapper, is afterwards what it was before. -/
theorem injectFunc_applies_once {W Obj Req : Type} (e : enqueueRequestsFromMapFunc W Obj Req) :
    (∀ (g : mapper W Obj Req → W → Except String (Option String) × W) (w : W),
      (e.InjectFunc (some g) w).1 = g e.ToRequests w ∧
      (∀ err : String, (e.InjectFunc (some g) w).1.1 = Except.ok (some err) ↔
        (g e.ToRequests w).1 = Except.ok (some err)) ∧
      (e.InjectFunc (some g) w).2 = e ∧
      (e.InjectFunc (some g) w).2.ToRequests = e.ToRequests) ∧
    (∀ w : W,
      (e.InjectFunc none w).1 = (Except.ok none, w) ∧
      (e.InjectFunc none w).2 = e ∧
      (e.InjectFunc none w).2.ToRequests = e.ToRequests) ∧
    (∀ (e' : enqueueRequestsFromMapFunc Nat Obj Req) (n : Nat),
      (e'.InjectFunc (some (fun _ k => (Except.ok none, k + 1))) n).1 =
        (Except.ok none, n + 1) ∧
      (e'.InjectFunc none n).1 = (Except.ok none, n)) := by
  refine ⟨fun g w => ⟨rfl, fun _ => Iff.rfl, rfl, rfl⟩, fun w => ⟨rfl, rfl, rfl⟩,
    fun e' n => ⟨rfl, rfl⟩⟩

/-- C10: for every mapper, every queue, every world and every pair of objects A and B,
the handler's Update on (old = A, new = B) is its Create on A followed by its Create
on B (when Create on A panics, Update panics the same way in the same world and
Create on B does not run); for a mapper function that is total, the world after Update
is the world after the two Creates and the logged calls coincide; and Create, Delete
and Generic on the same object are the same computation. -/
theorem update_is_create_then_create {W Obj Req : Type}
    (e : enqueueRequestsFromMapFunc W Obj Req) (q : RateLimitingInterface W Req)
    (A B : Obj) (w : W) :
    (e.Update { ObjectOld := A, ObjectNew := B } q w =
      match e.Create { Object := A } q w with
      | (Except.ok (), w1) => e.Create { Object := B } q w1
      | (Except.error p, w1) => (Except.error p, w1)) ∧
    (∀ f : MapObject Obj → List Req,
      (EnqueueRequestsFromMapFunc (pureFunc f)).Update { ObjectOld := A, ObjectNew := B } q w =
        (EnqueueRequestsFromMapFunc (pureFunc f)).Create { Object := B } q
          ((EnqueueRequestsFromMapFunc (pureFunc f)).Create { Object := A } q w).2) ∧
    (∀ (f : MapObject Obj → List Req) (log : List (Call Obj Req)),
      (EnqueueRequestsFromMapFunc (recordedFunc (fun o => Except.ok (f o)))).Update
          { ObjectOld := A, ObjectNew := B } recorder log =
        (EnqueueRequestsFromMapFunc (recordedFunc (fun o => Except.ok (f o)))).Create
          { Object := B } recorder
          ((EnqueueRequestsFromMapFunc (recordedFunc (fun o => Except.ok (f o)))).Create
            { Object := A } recorder log).2) ∧
    e.Create { Object := A } q w = e.Delete { Object := A } q w ∧
    e.Create { Object := A } q w = e.Generic { Object := A } q w := by
  refine ⟨rfl, fun f => ?_, fun f log => ?_, rfl, rfl⟩
  · simp [enqueueRequestsFromMapFunc.Create, update_pure, mapAndEnqueue_pure,
      enqueueAll_append]
  · simp [enqueueRequestsFromMapFunc.Create, enqueueRequestsFromMapFunc.Update,
      mapAndEnqueue_recorded]

end handler

/-! ## The claims about the queue state -/

namespace handler

open workqueue

/-- C3: for every mapper `f`, every Update event with old object A and new object B and
every work queue whose Add is the spec's deduplicating insert, if no key of `f A` or
`f B` is in flight and none of them is queued more than once (the queue invariant),
then Update returns normally, the queued keys afterwards are the previously queued
keys together with those of `f A` and `f B`, every key of `f A` or `f B` is queued
exactly once, however often it occurs in the two lists, and no other key changes its
number of queued entries. -/
theorem update_queues_union_once {Obj : Type} (f : MapObject Obj → List reconcile.Request)
    (evt : event.UpdateEvent Obj) (q : RateLimitingInterface WorkQueue reconcile.Request)
    (s : WorkQueue) (hAdd : q.Add = WorkQueue.Add)
    (hFlight : ∀ k ∈ f { Object := evt.ObjectOld } ++ f { Object := evt.ObjectNew },
      k ∉ s.processing)
    (hOnce : ∀ k ∈ f { Object := evt.ObjectOld } ++ f { Object := evt.ObjectNew },
      s.queue.count k ≤ 1) :
    ∃ s', (EnqueueRequestsFromMapFunc (pureFunc f)).Update evt q s = (Except.ok (), s') ∧
      (∀ k, k ∈ s'.queue ↔
        k ∈ s.queue ∨ k ∈ f { Object := evt.ObjectOld } ∨ k ∈ f { Object := evt.ObjectNew }) ∧
      (∀ k ∈ f { Object := evt.ObjectOld } ++ f { Object := evt.ObjectNew },
        s'.queue.count k = 1) ∧
      (∀ k, k ∉ f { Object := evt.ObjectOld } ++ f { Object := evt.ObjectNew } →
        s'.queue.count k = s.queue.count k) := by
  refine ⟨_, update_pure f evt q s, ?_, ?_, ?_⟩
  · intro k
    rw [enqueueAll_congr q specQueue hAdd]
    have hc := enqueueAll_queue_count _ s hFlight k
    by_cases hk : k ∈ f { Object := evt.ObjectOld } ++ f { Object := evt.ObjectNew }
    · rw [if_pos hk] at hc
      have hpos : 0 < (enqueueAll specQueue
          (f { Object := evt.ObjectOld } ++ f { Object := evt.ObjectNew }) s).queue.count k := by
        omega
      have hmem := List.count_pos_iff.mp hpos
      have hk' := List.mem_append.mp hk
      exact ⟨fun _ => Or.inr hk', fun _ => hmem⟩
    · rw [if_neg hk] at hc
      have hk' : ¬ (k ∈ f { Object := evt.ObjectOld } ∨ k ∈ f { Object := evt.ObjectNew }) :=
        fun h => hk (List.mem_append.mpr h)
      constructor
      · intro h
        have hpos : 0 < s.queue.count k := hc ▸ List.count_pos_iff.mpr h
        exact Or.inl (List.count_pos_iff.mp hpos)
      · rintro (h | h)
        · have hpos : 0 < s.queue.count k := List.count_pos_iff.mpr h
          exact List.count_pos_iff.mp (hc ▸ hpos)
        · exact absurd h hk'
  · intro k hk
    rw [enqueueAll_congr q specQueue hAdd, enqueueAll_queue_count _ s hFlight k, if_pos hk]
    have := hOnce k hk
    omega
  · intro k hk
    rw [enqueueAll_congr q specQueue hAdd, enqueueAll_queue_count _ s hFlight k, if_neg hk]

/-- Witness for C3: object 0 maps to a, b, a and object 1 to b, c, on a queue where b
already waits and d is in flight. -/
theorem update_queues_union_once_witness :
    (specQueue.Add = WorkQueue.Add) ∧
    (∀ k ∈ fixtures.fanOut { Object := 0 } ++ fixtures.fanOut { Object := 1 },
      k ∉ fixtures.busyQueue.processing) ∧
    (∀ k ∈ fixtures.fanOut { Object := 0 } ++ fixtures.fanOut { Object := 1 },
      fixtures.busyQueue.queue.count k ≤ 1) ∧
    ∃ s', (EnqueueRequestsFromMapFunc (pureFunc fixtures.fanOut)).Update
        { ObjectOld := 0, ObjectNew := 1 } specQueue fixtures.busyQueue = (Except.ok (), s') ∧
      (∀ k, k ∈ s'.queue ↔
        k ∈ fixtures.busyQueue.queue ∨ k ∈ fixtures.fanOut { Object := 0 } ∨
          k ∈ fixtures.fanOut { Object := 1 }) ∧
      (∀ k ∈ fixtures.fanOut { Object := 0 } ++ fixtures.fanOut { Object := 1 },
        s'.queue.count k = 1) ∧
      (∀ k, k ∉ fixtures.fanOut { Object := 0 } ++ fixtures.fanOut { Object := 1 } →
        s'.queue.count k = fixtures.busyQueue.queue.count k) :=
  ⟨rfl, by decide, by decide,
    update_queues_union_once fixtures.fanOut { ObjectOld := 0, ObjectNew := 1 } specQueue
      fixtures.busyQueue rfl (by decide) (by decide)⟩

/-- C6: for every event kind and every mapper, the handler's only interaction with the
work queue is Add. On a queue whose Add is the spec's insert, the in-flight set, the
attempt counters, the delayed-add schedule and the shutdown flag are the same after the
call as before it, whether the mapper answers or fails; on the recording queue every
logged call is a call of the mapper or an Add; and for any handler in any world,
running it against a queue is the same as running it against the queue that keeps
only that queue's Add and has every other operation inert. -/
theorem handler_only_adds {W Obj : Type}
    (f : MapObject Obj → Except String (List reconcile.Request)) (ev : Event Obj)
    (q : RateLimitingInterface WorkQueue reconcile.Request) (s : WorkQueue)
    (hAdd : q.Add = WorkQueue.Add) :
    ((deliver (EnqueueRequestsFromMapFunc (fallibleFunc f)) ev q s).2.processing =
        s.processing ∧
      (deliver (EnqueueRequestsFromMapFunc (fallibleFunc f)) ev q s).2.attempts =
        s.attempts ∧
      (deliver (EnqueueRequestsFromMapFunc (fallibleFunc f)) ev q s).2.delayed =
        s.delayed ∧
      (deliver (EnqueueRequestsFromMapFunc (fallibleFunc f)) ev q s).2.shuttingDown =
        s.shuttingDown) ∧
    (∀ log : List (Call Obj reconcile.Request),
      ∃ t, (deliver (EnqueueRequestsFromMapFunc (recordedFunc f)) ev recorder log).2 =
          log ++ t ∧ ∀ c ∈ t, c.isMapOrAdd = true) ∧
    (∀ (e : enqueueRequestsFromMapFunc W Obj reconcile.Request)
        (q' : RateLimitingInterface W reconcile.Request) (w : W),
      deliver e ev q' w = deliver e ev (addOnly q'.Add) w) := by
  refine ⟨?_, fun log => deliver_recorded_trace f ev log,
    fun e q' w => deliver_congr e q' (addOnly q'.Add) rfl ev w⟩
  obtain ⟨xs, hxs⟩ := deliver_fallible_world f ev q s
  rw [hxs]
  have hf : ∀ r w, q.Add r w = WorkQueue.Add r w := fun r w => by rw [hAdd]
  refine ⟨enqueueAll_frame q (fun w => w.processing) (fun r w => ?_) xs s,
    enqueueAll_frame q (fun w => w.attempts) (fun r w => ?_) xs s,
    enqueueAll_frame q (fun w => w.delayed) (fun r w => ?_) xs s,
    enqueueAll_frame q (fun w => w.shuttingDown) (fun r w => ?_) xs s⟩
  · simpa [hf] using (Add_frame r w).1
  · simpa [hf] using (Add_frame r w).2.1
  · simpa [hf] using (Add_frame r w).2.2.1
  · simpa [hf] using (Add_frame r w).2.2.2.1

/-- Witness for C6: an Update whose mapper answers for the old object and fails for
the new one, on a queue with work in flight, a failure count and a delayed add. -/
theorem handler_only_adds_witness :
    (specQueue.Add = WorkQueue.Add) ∧
    (deliver (EnqueueRequestsFromMapFunc (fallibleFunc fixtures.flaky))
        (Event.Updated { ObjectOld := 0, ObjectNew := 1 }) specQueue
        fixtures.busyQueue).2.processing = [fixtures.reqD] ∧
    (deliver (EnqueueRequestsFromMapFunc (fallibleFunc fixtures.flaky))
        (Event.Updated { ObjectOld := 0, ObjectNew := 1 }) specQueue
        fixtures.busyQueue).2.attempts = [(fixtures.reqA, 2)] ∧
    (deliver (EnqueueRequestsFromMapFunc (fallibleFunc fixtures.flaky))
        (Event.Updated { ObjectOld := 0, ObjectNew := 1 }) specQueue
        fixtures.busyQueue).2.delayed = [(fixtures.reqA, 7)] ∧
    (deliver (EnqueueRequestsFromMapFunc (fallibleFunc fixtures.flaky))
        (Event.Updated { ObjectOld := 0, ObjectNew := 1 }) specQueue
        fixtures.busyQueue).2.shuttingDown = false :=
  ⟨rfl,
    (handler_only_adds (W := WorkQueue) fixtures.flaky
      (Event.Updated { ObjectOld := 0, ObjectNew := 1 }) specQueue fixtures.busyQueue rfl).1⟩

/-- C8: for every event, every deterministic mapper and every work queue whose Add is
the spec's deduplicating insert, handling the same event twice in a row, with no Get
or Done in between, leaves the queue in the state in which handling it once leaves
it, and both deliveries return normally. -/
theorem deliver_twice_is_once {Obj : Type} (f : MapObject Obj → List reconcile.Request)
    (ev : Event Obj) (q : RateLimitingInterface WorkQueue reconcile.Request) (s : WorkQueue)
    (hAdd : q.Add = WorkQueue.Add) :
    deliver (EnqueueRequestsFromMapFunc (pureFunc f)) ev q
        (deliver (EnqueueRequestsFromMapFunc (pureFunc f)) ev q s).2 =
      deliver (EnqueueRequestsFromMapFunc (pureFunc f)) ev q s ∧
    (deliver (EnqueueRequestsFromMapFunc (pureFunc f)) ev q s).1 = Except.ok () := by
  simp only [deliver_pure, enqueueAll_congr q specQueue hAdd, enqueueAll_twice, and_self]

/-- Witness for C8: the Update from object 0 to object 1 delivered twice to a queue
where b waits and d is in flight. -/
theorem deliver_twice_is_once_witness :
    (specQueue.Add = WorkQueue.Add) ∧
    (deliver (EnqueueRequestsFromMapFunc (pureFunc fixtures.fanOut))
        (Event.Updated { ObjectOld := 0, ObjectNew := 1 }) specQueue
        (deliver (EnqueueRequestsFromMapFunc (pureFunc fixtures.fanOut))
          (Event.Updated { ObjectOld := 0, ObjectNew := 1 }) specQueue fixtures.busyQueue).2 =
      deliver (EnqueueRequestsFromMapFunc (pureFunc fixtures.fanOut))
        (Event.Updated { ObjectOld := 0, ObjectNew := 1 }) specQueue fixtures.busyQueue ∧
    (deliver (EnqueueRequestsFromMapFunc (pureFunc fixtures.fanOut))
        (Event.Updated { ObjectOld := 0, ObjectNew := 1 }) specQueue fixtures.busyQueue).1 =
      Except.ok ()) :=
  ⟨rfl,
    deliver_twice_is_once fixtures.fanOut (Event.Updated { ObjectOld := 0, ObjectNew := 1 })
      specQueue fixtures.busyQueue rfl⟩

end handler

/-! ## Empty and failing mapper results -/

namespace handler

open workqueue

/-- C9: for every event kind, if the mapper returns the empty list for every object the
event carries, the handler returns normally without a single Add call and leaves the
world as it found it (on the recording queue only the mapper calls are logged); and an
Update whose old object maps to the empty list adds exactly the requests of the new
object, an Update whose new object maps to the empty list exactly those of the old. -/
theorem empty_mapping_adds_nothing {W Obj Req : Type} (f : MapObject Obj → List Req)
    (ev : Event Obj) (hEmpty : ∀ o ∈ ev.objects, f o = []) :
    (∀ (q : RateLimitingInterface W Req) (w : W),
      deliver (EnqueueRequestsFromMapFunc (pureFunc f)) ev q w = (Except.ok (), w)) ∧
    (∀ log : List (Call Obj Req),
      deliver (EnqueueRequestsFromMapFunc (recordedFunc (fun o => Except.ok (f o)))) ev
          recorder log = (Except.ok (), log ++ ev.objects.map Call.Map) ∧
      addCalls (ev.objects.map (Call.Map : MapObject Obj → Call Obj Req)) = []) ∧
    (∀ (evt : event.UpdateEvent Obj) (q : RateLimitingInterface W Req) (w : W),
      (f { Object := evt.ObjectOld } = [] →
        (EnqueueRequestsFromMapFunc (pureFunc f)).Update evt q w =
          (Except.ok (), enqueueAll q (f { Object := evt.ObjectNew }) w)) ∧
      (f { Object := evt.ObjectNew } = [] →
        (EnqueueRequestsFromMapFunc (pureFunc f)).Update evt q w =
          (Except.ok (), enqueueAll q (f { Object := evt.ObjectOld }) w))) ∧
    (∀ (evt : event.UpdateEvent Obj) (log : List (Call Obj Req)),
      (f { Object := evt.ObjectOld } = [] →
        addCalls ((EnqueueRequestsFromMapFunc
            (recordedFunc (fun o => Except.ok (f o)))).Update evt recorder log).2 =
          addCalls log ++ f { Object := evt.ObjectNew }) ∧
      (f { Object := evt.ObjectNew } = [] →
        addCalls ((EnqueueRequestsFromMapFunc
            (recordedFunc (fun o => Except.ok (f o)))).Update evt recorder log).2 =
          addCalls log ++ f { Object := evt.ObjectOld })) := by
  have hflat : ev.objects.flatMap f = [] := by
    simp only [List.flatMap_eq_nil_iff]
    exact hEmpty
  refine ⟨fun q w => ?_, fun log => ⟨?_, ?_⟩, fun evt q w => ⟨fun h => ?_, fun h => ?_⟩,
    fun evt log => ⟨fun h => ?_, fun h => ?_⟩⟩
  · rw [deliver_pure, hflat]
    rfl
  · rw [deliver_recorded]
    congr 2
    cases ev <;> simp_all [Event.objects]
  · cases ev <;> simp [Event.objects, addCalls]
  · rw [update_pure, h, List.nil_append]
  · rw [update_pure, h, List.append_nil]
  · simp [enqueueRequestsFromMapFunc.Update, mapAndEnqueue_recorded, h, addCalls_append,
      addCalls_map_Add, addCalls]
  · simp [enqueueRequestsFromMapFunc.Update, mapAndEnqueue_recorded, h, addCalls_append,
      addCalls_map_Add, addCalls]

/-- Witness for C9: the Create event for object 0, which the mapper maps to nothing,
and the Update from object 0 to object 1, which adds the requests of object 1 only. -/
theorem empty_mapping_adds_nothing_witness :
    (∀ o ∈ (Event.Created { Object := 0 } : Event Nat).objects, fixtures.sparse o = []) ∧
    deliver (EnqueueRequestsFromMapFunc (pureFunc fixtures.sparse))
        (Event.Created { Object := 0 }) specQueue fixtures.busyQueue =
      (Except.ok (), fixtures.busyQueue) ∧
    (EnqueueRequestsFromMapFunc (pureFunc fixtures.sparse)).Update
        { ObjectOld := 0, ObjectNew := 1 } specQueue fixtures.busyQueue =
      (Except.ok (), enqueueAll specQueue [fixtures.reqA, fixtures.reqB] fixtures.busyQueue) :=
  ⟨by decide,
    (empty_mapping_adds_nothing fixtures.sparse (Event.Created { Object := 0 })
      (by decide)).1 specQueue fixtures.busyQueue,
    ((empty_mapping_adds_nothing fixtures.sparse (Event.Created { Object := 0 })
      (by decide)).2.2.1 { ObjectOld := 0, ObjectNew := 1 } specQueue fixtures.busyQueue).1
      rfl⟩

/-- Counterexample to C4 as stated: the mapper answers `[a]` for the old object and fails
for the new one; Update hands the failure to its caller, and the queue, empty before
the call, holds `a` after it. -/
theorem update_failure_after_old_adds :
    ((EnqueueRequestsFromMapFunc (fallibleFunc fixtures.flaky)).Update
        { ObjectOld := 0, ObjectNew := 1 } specQueue fixtures.emptyQueue).1 =
      Except.error "mapper failed" ∧
    ((EnqueueRequestsFromMapFunc (fallibleFunc fixtures.flaky)).Update
        { ObjectOld := 0, ObjectNew := 1 } specQueue fixtures.emptyQueue).2.queue =
      [fixtures.reqA] ∧
    ((EnqueueRequestsFromMapFunc (fallibleFunc fixtures.flaky)).Update
        { ObjectOld := 0, ObjectNew := 1 } specQueue fixtures.emptyQueue).2 ≠
      fixtures.emptyQueue := by
  refine ⟨rfl, rfl, ?_⟩
  decide

/-- C4, amended: when the mapper fails with `p`, the failure reaches the caller of the
handler. For a Create, Delete or Generic event, and for an Update event whose mapper
call on the old object fails, the world after the call is the world before it and
nothing has been added. For an Update event whose mapper call answers `reqs` on the
old object and fails on the new one, the world after the call is the one reached by
adding `reqs`: what the old object produced was submitted before the failure. -/
theorem mapper_failure_propagates {W Obj Req : Type}
    (f : MapObject Obj → Except String (List Req)) (q : RateLimitingInterface W Req)
    (A B : Obj) (w : W) (p : String) :
    (f { Object := A } = Except.error p →
      (EnqueueRequestsFromMapFunc (fallibleFunc f)).Create { Object := A } q w =
          (Except.error p, w) ∧
      (EnqueueRequestsFromMapFunc (fallibleFunc f)).Delete { Object := A } q w =
          (Except.error p, w) ∧
      (EnqueueRequestsFromMapFunc (fallibleFunc f)).Generic { Object := A } q w =
          (Except.error p, w) ∧
      (EnqueueRequestsFromMapFunc (fallibleFunc f)).Update
          { ObjectOld := A, ObjectNew := B } q w = (Except.error p, w)) ∧
    (∀ reqs, f { Object := A } = Except.ok reqs → f { Object := B } = Except.error p →
      (EnqueueRequestsFromMapFunc (fallibleFunc f)).Update
          { ObjectOld := A, ObjectNew := B } q w = (Except.error p, enqueueAll q reqs w)) := by
  refine ⟨fun h => ?_, fun reqs hA hB => ?_⟩
  · simp [enqueueRequestsFromMapFunc.Create, enqueueRequestsFromMapFunc.Delete,
      enqueueRequestsFromMapFunc.Generic, enqueueRequestsFromMapFunc.Update,
      mapAndEnqueue_fallible, h]
  · simp [enqueueRequestsFromMapFunc.Update, mapAndEnqueue_fallible, hA, hB]

/-- Witness for the amended C4: the mapper fails for object 1 and answers `[a]` for
object 0. -/
theorem mapper_failure_propagates_witness :
    fixtures.flaky { Object := 1 } = Except.error "mapper failed" ∧
    fixtures.flaky { Object := 0 } = Except.ok [fixtures.reqA] ∧
    (EnqueueRequestsFromMapFunc (fallibleFunc fixtures.flaky)).Create { Object := 1 }
        specQueue fixtures.busyQueue = (Except.error "mapper failed", fixtures.busyQueue) ∧
    (EnqueueRequestsFromMapFunc (fallibleFunc fixtures.flaky)).Update
        { ObjectOld := 1, ObjectNew := 0 } specQueue fixtures.busyQueue =
      (Except.error "mapper failed", fixtures.busyQueue) ∧
    (EnqueueRequestsFromMapFunc (fallibleFunc fixtures.flaky)).Update
        { ObjectOld := 0, ObjectNew := 1 } specQueue fixtures.busyQueue =
      (Except.error "mapper failed", enqueueAll specQueue [fixtures.reqA] fixtures.busyQueue) :=
  ⟨rfl, rfl,
    ((mapper_failure_propagates fixtures.flaky specQueue 1 0 fixtures.busyQueue
      "mapper failed").1 rfl).1,
    ((mapper_failure_propagates fixtures.flaky specQueue 1 0 fixtures.busyQueue
      "mapper failed").1 rfl).2.2.2,
    (mapper_failure_propagates fixtures.flaky specQueue 0 1 fixtures.busyQueue
      "mapper failed").2 [fixtures.reqA] rfl rfl⟩

end handler

/-! ## Controller construction -/

namespace controller

/-- Counterexample to C7 as stated: with the empty name and the Reconciler unset, `New`
returns a single validation error, the one about the name; its text does not contain
"must specify Reconciler", so no error returned there carries both texts. -/
theorem New_reports_one_violation :
    New "" fixtures.mgr (fixtures.optionsWith none) =
      Except.error (NewError.validation "must specify Name for Controller") ∧
    ContainSubstring (NewError.validation "must specify Name for Controller").Error
      "must specify Reconciler" = false ∧
    ¬ ∃ e, New "" fixtures.mgr (fixtures.optionsWith none) = Except.error e ∧
      ContainSubstring e.Error "must specify Name for Controller" = true ∧
      ContainSubstring e.Error "must specify Reconciler" = true := by
  refine ⟨rfl, by decide, ?_⟩
  rintro ⟨e, he, _, hRec⟩
  have hEq : e = NewError.validation "must specify Name for Controller" := by
    have h : (Except.error (NewError.validation "must specify Name for Controller") :
        Except NewError (Controller fixtures.Rec)) = Except.error e := he
    exact (Except.error.inj h).symm
  subst hEq
  revert hRec
  decide

/-- C7, amended: for every manager and options, `New` returns no controller and a
validation error whenever the name is the empty string or the Reconciler option is
unset; the error text contains "must specify Name for Controller" when the name is the
only violation, contains "must specify Reconciler" when the unset Reconciler is the only
violation, and contains one of the two when both are violated; and `New` returns an
error, the injection error with the text of its cause, when injecting a dependency
into the Reconciler fails. -/
theorem New_rejects_invalid_input {R : Type} (name : String) (mgr : Manager R)
    (options : Options R) :
    (name = "" ∨ options.Reconciler = none →
      ∃ text, New name mgr options = Except.error (NewError.validation text) ∧
        (ContainSubstring text "must specify Name for Controller" = true ∨
          ContainSubstring text "must specify Reconciler" = true)) ∧
    (name = "" → options.Reconciler ≠ none →
      ∃ e, New name mgr options = Except.error e ∧
        ContainSubstring e.Error "must specify Name for Controller" = true) ∧
    (options.Reconciler = none → name ≠ "" →
      ∃ e, New name mgr options = Except.error e ∧
        ContainSubstring e.Error "must specify Reconciler" = true) ∧
    (∀ r err, options.Reconciler = some r → mgr.SetFields r = some err →
      (∃ e, New name mgr options = Except.error e) ∧
      (name ≠ "" → New name mgr options = Except.error (NewError.injection err))) := by
  have hName : ContainSubstring "must specify Name for Controller"
      "must specify Name for Controller" = true := by decide
  have hRec : ContainSubstring "must specify Reconciler" "must specify Reconciler" = true := by
    decide
  refine ⟨fun h => ?_, fun h _ => ?_, fun h hn => ?_, fun r err hr herr => ⟨?_, fun hn => ?_⟩⟩
  · by_cases hn : name = ""
    · exact ⟨"must specify Name for Controller", by simp [New, hn], Or.inl hName⟩
    · have hr : options.Reconciler = none := h.resolve_left hn
      exact ⟨"must specify Reconciler", by simp [New, hn, hr], Or.inr hRec⟩
  · exact ⟨NewError.validation "must specify Name for Controller", by simp [New, h], hName⟩
  · exact ⟨NewError.validation "must specify Reconciler", by simp [New, h, hn], hRec⟩
  · by_cases hn : name = ""
    · exact ⟨NewError.validation "must specify Name for Controller", by simp [New, hn]⟩
    · exact ⟨NewError.injection err, by simp [New, hn, hr, herr]⟩
  · simp [New, hn, hr, herr]

/-- Witness for the amended C7: the three failing constructions of the tests: no name, no
reconciler, and a reconciler whose injection fails. -/
theorem New_rejects_invalid_input_witness :
    ((∃ e, New "" fixtures.mgr (fixtures.optionsWith (some fixtures.Rec.okRec)) = Except.error e ∧
        ContainSubstring e.Error "must specify Name for Controller" = true) ∧
      (∃ e, New "foo" fixtures.mgr (fixtures.optionsWith none) = Except.error e ∧
        ContainSubstring e.Error "must specify Reconciler" = true)) ∧
    New "foo" fixtures.mgr (fixtures.optionsWith (some fixtures.Rec.failRec)) =
      Except.error (NewError.injection "expected error") :=
  ⟨⟨(New_rejects_invalid_input "" fixtures.mgr
        (fixtures.optionsWith (some fixtures.Rec.okRec))).2.1 rfl (by decide),
      (New_rejects_invalid_input "foo" fixtures.mgr (fixtures.optionsWith none)).2.2.1 rfl
        (by decide)⟩,
    ((New_rejects_invalid_input "foo" fixtures.mgr
        (fixtures.optionsWith (some fixtures.Rec.failRec))).2.2.2 fixtures.Rec.failRec
        "expected error" rfl rfl).2 (by decide)⟩

end controller
